import Mathlib

/-!
Verification of `ArborX::Interpolation::MovingLeastSquares`
(src/src/interpolation/ArborX_InterpMovingLeastSquares.hpp).

The class stores three members (lines 254-258):
  Kokkos::View<FloatingCalculationType **> _coeffs;
  Kokkos::View<int **>                     _values_indices;
  int                                      _source_size;

The embedding uses `Rat` for the floating calculation type (exact
arithmetic), `List (List _)` for the rectangular 2D Kokkos views, and
`List.getD` for view element access.  The external collaborators that are
not part of this source file — the bounding volume hierarchy with its
k-nearest-neighbor query and the moving-least-squares coefficient solver —
are passed to `construct` as function parameters, constrained only where a
claim needs their interface contract.
-/

namespace ArborX

/-- Modelled from the spec: the compactly-supported radial basis function
family is an external collaborator "parameterized by a smoothness order"
(the kernel formulas are out of scope); this development only needs the
identity of the chosen family member.  The source file mentions only the
`CRBF::Wendland<k>` family (line 80). -/
inductive CRBF where
| wendland : Nat → CRBF
deriving DecidableEq

/-- Default kernel argument of the constructor: `CRBF = CRBF::Wendland<0>`
(line 80). -/
def defaultCRBF : CRBF := CRBF.wendland 0

/-- Default polynomial degree argument of the constructor:
`PolynomialDegree = PolynomialDegree<2>` (line 81). -/
def defaultPolynomialDegree : Nat := 2

/-- Modelled from the spec: `Details::polynomialBasisSize<dim, deg>()`
lives in ArborX_InterpDetailsPolynomialBasis.hpp, which is not part of the
given source; the spec describes it as "the number of polynomial terms for
`D,d`" — the count of monomials of total degree at most `deg` in `dim`
variables, `C(dim + deg, deg)`. -/
def polynomialBasisSize (dim deg : Nat) : Nat := Nat.choose (dim + deg) deg

/-- Construction-time failure (the `KOKKOS_ASSERT` on line 131). -/
inductive ConfigError where
| configurationError : ConfigError
deriving DecidableEq

/-- Apply-time failure (the `KOKKOS_ASSERT` on line 234). -/
inductive InterpError where
| contractViolation : InterpError
deriving DecidableEq

/-- External phases the constructor executes, in order: building the
source tree (line 134), querying it (line 146), and the coefficient solve
(line 156).  `construct` returns the list of phases it reached, so that
fail-fast ordering claims are expressible. -/
inductive Event where
| buildIndex : Event
| query : Event
| solve : Event
deriving DecidableEq

/-- State of a constructed operator: exactly the data members of
`MovingLeastSquares` (lines 254-258). -/
structure MovingLeastSquares where
  _coeffs : List (List Rat)
  _values_indices : List (List Nat)
  _source_size : Nat
deriving DecidableEq

/-- `_values_indices.extent(0)` (line 238). -/
def numTargets (mls : MovingLeastSquares) : Nat := mls._values_indices.length

/-- `_values_indices.extent(1)` (line 239); the views built by `construct`
are rectangular, so the length of the first row is the common row length. -/
def numNeighbors (mls : MovingLeastSquares) : Nat :=
  (mls._values_indices.headD []).length

/-- `fillValuesIndicesAndGetSourceView` (lines 161-197): from the CSR
query result (`indices`, `offsets`) build the dense `numTargets ×
numNeighbors` tables `_values_indices(i, j) = indices(offsets(i) + j)` and
`source_view(i, j) = src_acc::get(source_points, _values_indices(i, j))`. -/
def fillValuesIndicesAndGetSourceView {P : Type} [Inhabited P]
    (indices offsets : List Nat) (numTargets numNeighbors : Nat)
    (sourcePoints : List P) : List (List Nat) × List (List P) :=
  ((List.range numTargets).map fun i =>
      (List.range numNeighbors).map fun j =>
        indices.getD (offsets.getD i 0 + j) 0,
   (List.range numTargets).map fun i =>
      (List.range numNeighbors).map fun j =>
        sourcePoints.getD (indices.getD (offsets.getD i 0 + j) 0) default)

/-- `num_neighbors_val` (lines 123-126): the caller-given neighbor count,
defaulting to `polynomialBasisSize<dimension, PolynomialDegree::value>()`. -/
def numNeighborsVal (numNeighbors : Option Nat) (dim deg : Nat) : Nat :=
  numNeighbors.getD (polynomialBasisSize dim deg)

/-- The constructor (lines 82-159).  `query` stands for the external
bounding volume hierarchy build + k-nearest-neighbor query (it maps source
points, target points and the neighbor count to the CSR pair `(indices,
offsets)`); `solver` stands for the external
`Details::movingLeastSquaresCoefficients` (it maps the kernel choice, the
polynomial degree, the gathered neighbor coordinates and the target points
to the coefficient table).  The `KOKKOS_ASSERT(0 < num_neighbors_val &&
num_neighbors_val <= _source_size)` on line 131 is modelled as the
configuration check; it runs before any of the three external phases. -/
def construct {P : Type} [Inhabited P]
    (query : List P → List P → Nat → List Nat × List Nat)
    (solver : CRBF → Nat → List (List P) → List P → List (List Rat))
    (sourcePoints targetPoints : List P)
    (crbf : CRBF) (degree : Nat) (numNeighbors : Option Nat) (dim : Nat) :
    List Event × Except ConfigError MovingLeastSquares :=
  let nnv := numNeighborsVal numNeighbors dim degree
  let nt := targetPoints.length
  let ss := sourcePoints.length
  if 0 < nnv ∧ nnv ≤ ss then
    let qr := query sourcePoints targetPoints nnv
    let fv := fillValuesIndicesAndGetSourceView qr.1 qr.2 nt nnv sourcePoints
    let coeffs := solver crbf degree fv.2 targetPoints
    ([Event.buildIndex, Event.query, Event.solve],
     Except.ok ⟨coeffs, fv.1, ss⟩)
  else ([], Except.error ConfigError.configurationError)

/-- `interpolate` (lines 199-252).  The method is `const`; the embedding
returns the post-call operator state alongside the result so that
state-preservation claims are expressible.  The body checks
`_source_size == source_values.extent_int(0)`, reallocates the output to
`num_targets` entries (discarding `approx_values`'s incoming contents and
length), and writes `approx_values(i) = Σ_j _coeffs(i, j) *
source_values(_values_indices(i, j))` accumulated left to right. -/
def interpolate (mls : MovingLeastSquares) (sourceValues : List Rat)
    (approxValues : List Rat) :
    MovingLeastSquares × Except InterpError (List Rat) :=
  if mls._source_size = sourceValues.length then
    (mls, Except.ok ((List.range (numTargets mls)).map fun i =>
      (List.range (numNeighbors mls)).foldl
        (fun tmp j =>
          tmp + (mls._coeffs.getD i []).getD j 0 *
            sourceValues.getD ((mls._values_indices.getD i []).getD j 0) 0)
        0))
  else (mls, Except.error InterpError.contractViolation)

/-- Follows the spec's apply formula: for each target `t`,
`approx[t] = Σ_{j=0}^{K-1} coeff[t][j] · fieldValues[index[t][j]]`. -/
def specApprox (mls : MovingLeastSquares) (fieldValues : List Rat) :
    List Rat :=
  (List.range (numTargets mls)).map fun t =>
    ∑ j ∈ Finset.range (numNeighbors mls),
      (mls._coeffs.getD t []).getD j 0 *
        fieldValues.getD ((mls._values_indices.getD t []).getD j 0) 0

/-- Rectangularity invariant of the two stored Kokkos views: they have the
same number of rows and every row has the common row length
`numNeighbors`.  Every view produced by `construct` has this shape. -/
abbrev WellFormed (mls : MovingLeastSquares) : Prop :=
  mls._coeffs.length = mls._values_indices.length ∧
  (∀ row ∈ mls._coeffs, row.length = numNeighbors mls) ∧
  (∀ row ∈ mls._values_indices, row.length = numNeighbors mls)

/-- Every stored neighbor index is a valid source index `0..N-1`. -/
abbrev IndicesInRange (mls : MovingLeastSquares) : Prop :=
  ∀ row ∈ mls._values_indices, ∀ idx ∈ row, idx < mls._source_size

/-- Every array access of `interpolate`'s per-target loop (lines 243-251)
is in bounds when the field array has length `fieldLen`: for each target
`i` and slot `j` the loop reads `_coeffs(i, j)`,
`_values_indices(i, j)` and `source_values(_values_indices(i, j))`. -/
abbrev interpolateAccessesInBounds (mls : MovingLeastSquares)
    (fieldLen : Nat) : Prop :=
  ∀ i, i < numTargets mls →
    i < mls._coeffs.length ∧ i < mls._values_indices.length ∧
    ∀ j, j < numNeighbors mls →
      j < (mls._coeffs.getD i []).length ∧
      j < (mls._values_indices.getD i []).length ∧
      (mls._values_indices.getD i []).getD j 0 < fieldLen

theorem getD_map_range {α : Type} (f : Nat → α) {n i : Nat} (hi : i < n)
    (d : α) : ((List.range n).map f).getD i d = f i := by
  have h1 : i < ((List.range n).map f).length := by simpa using hi
  rw [List.getD_eq_getElem _ _ h1, List.getElem_map, List.getElem_range]

theorem foldl_add_eq_sum (f : Nat → Rat) (n : Nat) :
    (List.range n).foldl (fun tmp j => tmp + f j) 0 =
      ∑ j ∈ Finset.range n, f j := by
  induction n with
  | zero => simp
  | succ k ih =>
      rw [List.range_succ, List.foldl_append, ih, Finset.sum_range_succ]
      simp

theorem sum_range_getD (l : List Rat) :
    ∑ j ∈ Finset.range l.length, l.getD j 0 = l.sum := by
  induction l with
  | nil => simp
  | cons a t ih =>
      rw [List.length_cons, Finset.sum_range_succ']
      simp only [List.getD_cons_succ, List.getD_cons_zero, ih]
      rw [List.sum_cons, add_comm]

theorem interpolate_eq_specApprox (mls : MovingLeastSquares)
    (fieldValues approxValues : List Rat)
    (h : fieldValues.length = mls._source_size) :
    (interpolate mls fieldValues approxValues).2 =
      Except.ok (specApprox mls fieldValues) := by
  unfold interpolate
  rw [if_pos h.symm]
  show Except.ok _ = Except.ok _
  exact congrArg Except.ok
    (List.map_congr_left fun i _ => foldl_add_eq_sum _ _)

/-- Every coefficient-table row sums to 1 (the constant-field exactness
invariant the spec states for `CoefficientTable`). -/
abbrev RowsSumToOne (mls : MovingLeastSquares) : Prop :=
  ∀ row ∈ mls._coeffs, row.sum = 1

/-- Concrete operator used by the witnesses: one target, two neighbors,
two source points, coefficient row `[1/2, 1/2]`. -/
def mlsW : MovingLeastSquares :=
  ⟨[[(1 : Rat) / 2, 1 / 2]], [[0, 1]], 2⟩

/-- Claim C1: on a field-value array whose length matches the recorded
source size, `interpolate` returns, for each target `t`,
`approx[t] = Σ_{j=0}^{K-1} coeff[t][j] · fieldValues[index[t][j]]`
(the `specApprox` table), one value per target. -/
theorem interpolate_computes_weighted_sums (mls : MovingLeastSquares)
    (fieldValues approxValues : List Rat)
    (h : fieldValues.length = mls._source_size) :
    (interpolate mls fieldValues approxValues).2 =
      Except.ok (specApprox mls fieldValues) ∧
    (specApprox mls fieldValues).length = numTargets mls :=
  ⟨interpolate_eq_specApprox mls fieldValues approxValues h, by
    unfold specApprox
    simp⟩

theorem interpolate_computes_weighted_sums_witness :
    ([(2 : Rat), 4].length = mlsW._source_size) ∧
    ((interpolate mlsW [2, 4] []).2 = Except.ok (specApprox mlsW [2, 4]) ∧
      (specApprox mlsW [2, 4]).length = numTargets mlsW) :=
  ⟨rfl, interpolate_computes_weighted_sums mlsW [2, 4] [] rfl⟩

/-- Claim C2: `interpolate`'s output is freshly allocated with length
exactly `numTargets` during the call — the result is independent of the
output array passed in, whatever its length on entry. -/
theorem interpolate_reallocates_output (mls : MovingLeastSquares)
    (fieldValues approxValues approxValues' : List Rat)
    (h : fieldValues.length = mls._source_size) :
    interpolate mls fieldValues approxValues =
      interpolate mls fieldValues approxValues' ∧
    Except.map List.length (interpolate mls fieldValues approxValues).2 =
      Except.ok (numTargets mls) := by
  refine ⟨rfl, ?_⟩
  rw [interpolate_eq_specApprox mls fieldValues approxValues h]
  unfold specApprox
  simp [Except.map]

theorem interpolate_reallocates_output_witness :
    ([(3 : Rat), 5].length = mlsW._source_size) ∧
    (interpolate mlsW [3, 5] [9, 9, 9] = interpolate mlsW [3, 5] [] ∧
      Except.map List.length (interpolate mlsW [3, 5] [9, 9, 9]).2 =
        Except.ok (numTargets mlsW)) :=
  ⟨rfl, interpolate_reallocates_output mlsW [3, 5] [9, 9, 9] [] rfl⟩

/-- Claim C4: construction with a neighbor count `K ≤ 0` or `K > N` fails
as a configuration error before the tree build, the query and the solve
execute (empty event trace), and produces no operator. -/
theorem construct_invalid_neighbor_count_fails {P : Type} [Inhabited P]
    (query : List P → List P → Nat → List Nat × List Nat)
    (solver : CRBF → Nat → List (List P) → List P → List (List Rat))
    (sourcePoints targetPoints : List P) (crbf : CRBF) (degree : Nat)
    (numNeighbors : Option Nat) (dim : Nat)
    (h : numNeighborsVal numNeighbors dim degree ≤ 0 ∨
      sourcePoints.length < numNeighborsVal numNeighbors dim degree) :
    construct query solver sourcePoints targetPoints crbf degree
        numNeighbors dim =
      ([], Except.error ConfigError.configurationError) := by
  have hneg : ¬(0 < numNeighborsVal numNeighbors dim degree ∧
      numNeighborsVal numNeighbors dim degree ≤ sourcePoints.length) := by
    omega
  simp only [construct]
  rw [if_neg hneg]

theorem construct_invalid_neighbor_count_fails_witness :
    (numNeighborsVal (some 5) 1 2 ≤ 0 ∨
      [(0 : Rat), 1].length < numNeighborsVal (some 5) 1 2) ∧
    construct (fun _ _ _ => ([], [])) (fun _ _ _ _ => []) [(0 : Rat), 1]
        [(0 : Rat)] defaultCRBF 2 (some 5) 1 =
      ([], Except.error ConfigError.configurationError) :=
  ⟨Or.inr (by decide),
   construct_invalid_neighbor_count_fails _ _ _ _ _ _ _ _
     (Or.inr (by decide))⟩

/-- Claim C5: an `interpolate` call whose field-value array length
differs from the recorded source size fails with a contract violation,
leaves the operator state unchanged, and a subsequent call on the
resulting state behaves exactly as on the original operator. -/
theorem interpolate_wrong_size_fails (mls : MovingLeastSquares)
    (fieldValues approxValues fieldValues' approxValues' : List Rat)
    (h : fieldValues.length ≠ mls._source_size) :
    interpolate mls fieldValues approxValues =
      (mls, Except.error InterpError.contractViolation) ∧
    interpolate (interpolate mls fieldValues approxValues).1 fieldValues'
        approxValues' =
      interpolate mls fieldValues' approxValues' := by
  have hne : mls._source_size ≠ fieldValues.length := fun he => h he.symm
  have h1 : interpolate mls fieldValues approxValues =
      (mls, Except.error InterpError.contractViolation) := by
    unfold interpolate
    rw [if_neg hne]
  refine ⟨h1, ?_⟩
  rw [h1]

theorem interpolate_wrong_size_fails_witness :
    ([(1 : Rat)].length ≠ mlsW._source_size) ∧
    (interpolate mlsW [1] [] =
        (mlsW, Except.error InterpError.contractViolation) ∧
      interpolate (interpolate mlsW [1] []).1 [2, 4] [] =
        interpolate mlsW [2, 4] []) :=
  ⟨by decide, interpolate_wrong_size_fails mlsW [1] [] [2, 4] [] (by decide)⟩

/-- Claim C8: `interpolate` leaves the stored coefficient table,
neighbor-index table and recorded source size unchanged, and its result
is a function of that stored state and the field values alone: a second
call after a first one yields the same result as a single call on any
operator (for instance a freshly constructed one) with the same stored
fields — no cross-call state leakage. -/
theorem interpolate_no_state_leakage (mls mls' : MovingLeastSquares)
    (fieldValues1 fieldValues2 : List Rat)
    (approxValues1 approxValues2 approxValues3 approxValues4 : List Rat)
    (hc : mls'._coeffs = mls._coeffs)
    (hv : mls'._values_indices = mls._values_indices)
    (hs : mls'._source_size = mls._source_size) :
    (interpolate mls fieldValues1 approxValues1).1 = mls ∧
    (interpolate (interpolate mls fieldValues1 approxValues1).1 fieldValues2
        approxValues2).2 =
      (interpolate mls' fieldValues2 approxValues3).2 ∧
    (interpolate mls fieldValues1 approxValues1).2 =
      (interpolate mls' fieldValues1 approxValues4).2 := by
  have he : mls' = mls := by
    cases mls
    cases mls'
    simp_all
  have h1 : (interpolate mls fieldValues1 approxValues1).1 = mls := by
    unfold interpolate
    split <;> rfl
  refine ⟨h1, ?_, ?_⟩
  · rw [h1, he]
    exact rfl
  · rw [he]
    exact rfl

theorem interpolate_no_state_leakage_witness :
    (mlsW._coeffs = mlsW._coeffs ∧ mlsW._values_indices = mlsW._values_indices ∧
      mlsW._source_size = mlsW._source_size) ∧
    ((interpolate mlsW [2, 4] []).1 = mlsW ∧
      (interpolate (interpolate mlsW [2, 4] []).1 [6, 8] [0]).2 =
        (interpolate mlsW [6, 8] [1, 1]).2 ∧
      (interpolate mlsW [2, 4] []).2 = (interpolate mlsW [2, 4] [7]).2) :=
  ⟨⟨rfl, rfl, rfl⟩,
   interpolate_no_state_leakage mlsW mlsW [2, 4] [6, 8] [] [0] [1, 1] [7]
     rfl rfl rfl⟩

/-- Claim C3: on successful construction, entry `(i, j)` of the stored
neighbor-index table is `indices[offsets[i] + j]` of the CSR query
result, and entry `(i, j)` of the companion neighbor-coordinate table
handed to the solver is the source point at that stored index. -/
theorem construct_fills_tables {P : Type} [Inhabited P]
    (query : List P → List P → Nat → List Nat × List Nat)
    (solver : CRBF → Nat → List (List P) → List P → List (List Rat))
    (sourcePoints targetPoints : List P) (crbf : CRBF) (degree : Nat)
    (numNeighbors : Option Nat) (dim : Nat) (trace : List Event)
    (mls : MovingLeastSquares) (i j : Nat)
    (hok : construct query solver sourcePoints targetPoints crbf degree
        numNeighbors dim = (trace, Except.ok mls))
    (hi : i < targetPoints.length)
    (hj : j < numNeighborsVal numNeighbors dim degree) :
    (mls._values_indices.getD i []).getD j 0 =
      (query sourcePoints targetPoints
          (numNeighborsVal numNeighbors dim degree)).1.getD
        ((query sourcePoints targetPoints
            (numNeighborsVal numNeighbors dim degree)).2.getD i 0 + j) 0 ∧
    ((fillValuesIndicesAndGetSourceView
        (query sourcePoints targetPoints
          (numNeighborsVal numNeighbors dim degree)).1
        (query sourcePoints targetPoints
          (numNeighborsVal numNeighbors dim degree)).2
        targetPoints.length (numNeighborsVal numNeighbors dim degree)
        sourcePoints).2.getD i []).getD j default =
      sourcePoints.getD ((mls._values_indices.getD i []).getD j 0)
        default := by
  simp only [construct] at hok
  split at hok
  case isTrue hcond =>
    injection hok with h1 h2
    injection h2 with h3
    subst h3
    dsimp only at hi hj ⊢
    constructor
    · simp only [fillValuesIndicesAndGetSourceView]
      rw [getD_map_range _ hi, getD_map_range _ hj]
    · simp only [fillValuesIndicesAndGetSourceView]
      rw [getD_map_range _ hi, getD_map_range _ hj,
        getD_map_range _ hi, getD_map_range _ hj]
  case isFalse hcond =>
    simp at hok

theorem construct_fills_tables_witness :
    (construct (fun _ _ _ => ([1, 0], [0, 2])) (fun _ _ _ _ => [[1, 0]])
        [(0 : Rat), 1] [(0 : Rat)] defaultCRBF 2 (some 2) 1 =
      ([Event.buildIndex, Event.query, Event.solve],
        Except.ok ⟨[[1, 0]], [[1, 0]], 2⟩)) ∧
    (0 < [(0 : Rat)].length) ∧ (0 < numNeighborsVal (some 2) 1 2) ∧
    (((MovingLeastSquares.mk [[1, 0]] [[1, 0]] 2)._values_indices.getD 0
          []).getD 0 0 =
      ((fun (_ : List Rat) (_ : List Rat) (_ : Nat) =>
          (([1, 0], [0, 2]) : List Nat × List Nat)) [(0 : Rat), 1] [(0 : Rat)]
          (numNeighborsVal (some 2) 1 2)).1.getD
        (((fun (_ : List Rat) (_ : List Rat) (_ : Nat) =>
            (([1, 0], [0, 2]) : List Nat × List Nat)) [(0 : Rat), 1]
            [(0 : Rat)] (numNeighborsVal (some 2) 1 2)).2.getD 0 0 + 0) 0 ∧
      ((fillValuesIndicesAndGetSourceView
          ((fun (_ : List Rat) (_ : List Rat) (_ : Nat) =>
              (([1, 0], [0, 2]) : List Nat × List Nat)) [(0 : Rat), 1]
              [(0 : Rat)] (numNeighborsVal (some 2) 1 2)).1
          ((fun (_ : List Rat) (_ : List Rat) (_ : Nat) =>
              (([1, 0], [0, 2]) : List Nat × List Nat)) [(0 : Rat), 1]
              [(0 : Rat)] (numNeighborsVal (some 2) 1 2)).2
          [(0 : Rat)].length (numNeighborsVal (some 2) 1 2)
          [(0 : Rat), 1]).2.getD 0 []).getD 0 default =
        [(0 : Rat), 1].getD
          (((MovingLeastSquares.mk [[1, 0]] [[1, 0]] 2)._values_indices.getD
              0 []).getD 0 0) default) :=
  ⟨rfl, by decide, by decide,
   construct_fills_tables
     (fun _ _ _ => ([1, 0], [0, 2])) (fun _ _ _ _ => [[1, 0]])
     [(0 : Rat), 1] [(0 : Rat)] defaultCRBF 2 (some 2) 1
     [Event.buildIndex, Event.query, Event.solve]
     ⟨[[1, 0]], [[1, 0]], 2⟩ 0 0 rfl (by decide) (by decide)⟩

/-- Claim C6: when the caller omits the neighbor count, construction uses
`K = polynomialBasisSize dim degree` (every stored neighbor-index row has
exactly that length); the constructor's default kernel argument is
`Wendland 0` and its default polynomial degree is `2`. -/
theorem construct_default_neighbor_count {P : Type} [Inhabited P]
    (query : List P → List P → Nat → List Nat × List Nat)
    (solver : CRBF → Nat → List (List P) → List P → List (List Rat))
    (sourcePoints targetPoints : List P) (crbf : CRBF) (degree dim : Nat)
    (trace : List Event) (mls : MovingLeastSquares) (row : List Nat)
    (hok : construct query solver sourcePoints targetPoints crbf degree
        none dim = (trace, Except.ok mls))
    (hrow : row ∈ mls._values_indices) :
    row.length = polynomialBasisSize dim degree ∧
    numNeighborsVal none dim degree = polynomialBasisSize dim degree ∧
    defaultCRBF = CRBF.wendland 0 ∧ defaultPolynomialDegree = 2 := by
  refine ⟨?_, rfl, rfl, rfl⟩
  simp only [construct] at hok
  split at hok
  case isTrue hcond =>
    injection hok with h1 h2
    injection h2 with h3
    subst h3
    dsimp only at hrow
    simp only [fillValuesIndicesAndGetSourceView] at hrow
    obtain ⟨t, ht, hEq⟩ := List.mem_map.mp hrow
    rw [← hEq]
    simp [numNeighborsVal]
  case isFalse hcond =>
    simp at hok

theorem construct_default_neighbor_count_witness :
    (construct (fun _ _ _ => ([0, 1], [0, 2])) (fun _ _ _ _ => [[1, 0]])
        [(0 : Rat), 1] [(0 : Rat)] defaultCRBF 1 none 1 =
      ([Event.buildIndex, Event.query, Event.solve],
        Except.ok ⟨[[1, 0]], [[0, 1]], 2⟩)) ∧
    ([0, 1] ∈ (MovingLeastSquares.mk [[1, 0]] [[0, 1]] 2)._values_indices) ∧
    (([0, 1] : List Nat).length = polynomialBasisSize 1 1 ∧
      numNeighborsVal none 1 1 = polynomialBasisSize 1 1 ∧
      defaultCRBF = CRBF.wendland 0 ∧ defaultPolynomialDegree = 2) :=
  ⟨rfl, by decide,
   construct_default_neighbor_count
     (fun _ _ _ => ([0, 1], [0, 2])) (fun _ _ _ _ => [[1, 0]])
     [(0 : Rat), 1] [(0 : Rat)] defaultCRBF 1 1
     [Event.buildIndex, Event.query, Event.solve]
     ⟨[[1, 0]], [[0, 1]], 2⟩ [0, 1] rfl (by decide)⟩

/-- Query collaborator used by the claim-C7 results: one neighbor, one
target. -/
def queryC7 : List Rat → List Rat → Nat → List Nat × List Nat :=
  fun _ _ _ => ([0], [0, 1])

/-- Solver collaborator used by the claim-C7 results: single coefficient
1. -/
def solverC7 : CRBF → Nat → List (List Rat) → List Rat → List (List Rat) :=
  fun _ _ _ _ => [[1]]

/-- Claim C7 counterexample: two constructions yield operators with
identical neighbor-index and coefficient tables yet the operators differ
and behave differently — the state also retains the recorded source size
(`_source_size`, line 257), which `interpolate`'s length check reads, so
the operator does not retain *only* the two tables. -/
theorem construct_retains_source_size :
    (construct queryC7 solverC7 [(5 : Rat)] [(3 : Rat)] defaultCRBF 2
        (some 1) 1).2 =
      Except.ok ⟨[[1]], [[0]], 1⟩ ∧
    (construct queryC7 solverC7 [(5 : Rat), 6] [(3 : Rat)] defaultCRBF 2
        (some 1) 1).2 =
      Except.ok ⟨[[1]], [[0]], 2⟩ ∧
    (MovingLeastSquares.mk [[1]] [[0]] 1)._coeffs =
      (MovingLeastSquares.mk [[1]] [[0]] 2)._coeffs ∧
    (MovingLeastSquares.mk [[1]] [[0]] 1)._values_indices =
      (MovingLeastSquares.mk [[1]] [[0]] 2)._values_indices ∧
    MovingLeastSquares.mk [[1]] [[0]] 1 ≠
      MovingLeastSquares.mk [[1]] [[0]] 2 ∧
    (interpolate ⟨[[1]], [[0]], 1⟩ [7] []).2 = Except.ok [7] ∧
    (interpolate ⟨[[1]], [[0]], 2⟩ [7] []).2 =
      Except.error InterpError.contractViolation :=
  ⟨rfl, rfl, rfl, rfl, by decide,
   by norm_num [interpolate, numTargets, numNeighbors, List.range_succ], rfl⟩

/-- Claim C7 amended: after construction the operator retains only the
neighbor-index table, the coefficient table and the recorded source size;
the source point set, the target point set and the spatial index are not
retained — any two successful constructions (over arbitrary point types,
point sets and collaborators) that agree on those three stored fields
produce equal operators. -/
theorem construct_retains_only_tables_and_size {P Q : Type}
    [Inhabited P] [Inhabited Q]
    (queryP : List P → List P → Nat → List Nat × List Nat)
    (solverP : CRBF → Nat → List (List P) → List P → List (List Rat))
    (queryQ : List Q → List Q → Nat → List Nat × List Nat)
    (solverQ : CRBF → Nat → List (List Q) → List Q → List (List Rat))
    (srcP tgtP : List P) (srcQ tgtQ : List Q) (crbfP crbfQ : CRBF)
    (degP degQ : Nat) (nnP nnQ : Option Nat) (dimP dimQ : Nat)
    (trP trQ : List Event) (mlsP mlsQ : MovingLeastSquares)
    (hP : construct queryP solverP srcP tgtP crbfP degP nnP dimP =
      (trP, Except.ok mlsP))
    (hQ : construct queryQ solverQ srcQ tgtQ crbfQ degQ nnQ dimQ =
      (trQ, Except.ok mlsQ))
    (hc : mlsP._coeffs = mlsQ._coeffs)
    (hv : mlsP._values_indices = mlsQ._values_indices)
    (hs : mlsP._source_size = mlsQ._source_size) :
    mlsP = mlsQ := by
  cases mlsP
  cases mlsQ
  simp_all

theorem construct_retains_only_tables_and_size_witness :
    (construct queryC7 solverC7 [(5 : Rat)] [(3 : Rat)] defaultCRBF 2
        (some 1) 1 =
      ([Event.buildIndex, Event.query, Event.solve],
        Except.ok ⟨[[1]], [[0]], 1⟩)) ∧
    (construct queryC7 solverC7 [(9 : Rat)] [(4 : Rat)] defaultCRBF 3
        (some 1) 2 =
      ([Event.buildIndex, Event.query, Event.solve],
        Except.ok ⟨[[1]], [[0]], 1⟩)) ∧
    (MovingLeastSquares.mk [[1]] [[0]] 1)._coeffs =
      (MovingLeastSquares.mk [[1]] [[0]] 1)._coeffs ∧
    (MovingLeastSquares.mk [[1]] [[0]] 1)._values_indices =
      (MovingLeastSquares.mk [[1]] [[0]] 1)._values_indices ∧
    (MovingLeastSquares.mk [[1]] [[0]] 1)._source_size =
      (MovingLeastSquares.mk [[1]] [[0]] 1)._source_size ∧
    MovingLeastSquares.mk [[1]] [[0]] 1 =
      MovingLeastSquares.mk [[1]] [[0]] 1 :=
  ⟨rfl, rfl, rfl, rfl, rfl,
   construct_retains_only_tables_and_size queryC7 solverC7 queryC7 solverC7
     [(5 : Rat)] [(3 : Rat)] [(9 : Rat)] [(4 : Rat)] defaultCRBF defaultCRBF
     2 3 (some 1) (some 1) 1 2
     [Event.buildIndex, Event.query, Event.solve]
     [Event.buildIndex, Event.query, Event.solve]
     ⟨[[1]], [[0]], 1⟩ ⟨[[1]], [[0]], 1⟩ rfl rfl rfl rfl rfl⟩

/-- Claim C9: on a well-formed operator whose stored neighbor indices all
lie in `0..N-1` and whose coefficient rows each sum to 1, interpolating
the constant field `c` (of the recorded source length) yields exactly `c`
at every target. -/
theorem interpolate_constant_field (mls : MovingLeastSquares) (c : Rat)
    (approxValues : List Rat) (hwf : WellFormed mls)
    (hidx : IndicesInRange mls) (hsum : RowsSumToOne mls) :
    (interpolate mls (List.replicate mls._source_size c) approxValues).2 =
      Except.ok (List.replicate (numTargets mls) c) := by
  rw [interpolate_eq_specApprox mls _ approxValues
    (List.length_replicate _ _)]
  congr 1
  unfold specApprox
  have key : ∀ l : List Rat, (∀ b ∈ l, b = c) →
      l.length = numTargets mls →
      l = List.replicate (numTargets mls) c := by
    intro l h1 h2
    rw [← h2]
    exact List.eq_replicate_of_mem h1
  refine key _ ?_ (by simp)
  intro b hb
  obtain ⟨t, ht, hEq⟩ := List.mem_map.mp hb
  rw [← hEq]
  have htM : t < numTargets mls := List.mem_range.mp ht
  have hvlt : t < mls._values_indices.length := htM
  have hvmem : mls._values_indices.getD t [] ∈ mls._values_indices := by
    rw [List.getD_eq_getElem _ _ hvlt]
    exact List.getElem_mem _
  have hvlen : (mls._values_indices.getD t []).length = numNeighbors mls :=
    hwf.2.2 _ hvmem
  have hclt : t < mls._coeffs.length := by
    rw [hwf.1]
    exact htM
  have hcmem : mls._coeffs.getD t [] ∈ mls._coeffs := by
    rw [List.getD_eq_getElem _ _ hclt]
    exact List.getElem_mem _
  have hclen : (mls._coeffs.getD t []).length = numNeighbors mls :=
    hwf.2.1 _ hcmem
  have hfv : ∀ j ∈ Finset.range (numNeighbors mls),
      (mls._coeffs.getD t []).getD j 0 *
        (List.replicate mls._source_size c).getD
          ((mls._values_indices.getD t []).getD j 0) 0 =
      (mls._coeffs.getD t []).getD j 0 * c := by
    intro j hj
    have hjK : j < numNeighbors mls := Finset.mem_range.mp hj
    have hjv : j < (mls._values_indices.getD t []).length := by
      rw [hvlen]
      exact hjK
    have hidxmem : (mls._values_indices.getD t []).getD j 0 ∈
        mls._values_indices.getD t [] := by
      rw [List.getD_eq_getElem _ _ hjv]
      exact List.getElem_mem _
    have hlt : (mls._values_indices.getD t []).getD j 0 <
        mls._source_size := hidx _ hvmem _ hidxmem
    have hrep : (List.replicate mls._source_size c).getD
        ((mls._values_indices.getD t []).getD j 0) 0 = c := by
      have hltr : (mls._values_indices.getD t []).getD j 0 <
          (List.replicate mls._source_size c).length := by
        rw [List.length_replicate]
        exact hlt
      rw [List.getD_eq_getElem _ _ hltr, List.getElem_replicate]
    rw [hrep]
  rw [Finset.sum_congr rfl hfv, ← Finset.sum_mul, ← hclen,
    sum_range_getD, hsum _ hcmem, one_mul]

theorem interpolate_constant_field_witness :
    WellFormed mlsW ∧ IndicesInRange mlsW ∧ RowsSumToOne mlsW ∧
    (interpolate mlsW (List.replicate mlsW._source_size (4 : Rat)) []).2 =
      Except.ok (List.replicate (numTargets mlsW) 4) :=
  ⟨by decide, by decide, by norm_num [RowsSumToOne, mlsW],
   interpolate_constant_field mlsW 4 [] (by decide) (by decide)
     (by norm_num [RowsSumToOne, mlsW])⟩

/-- Claim C10: on a well-formed operator whose stored neighbor indices
all lie in `0..N-1`, and a field array of length exactly `N`, every
element access of `interpolate`'s per-target loop is in bounds. -/
theorem interpolate_accesses_in_bounds (mls : MovingLeastSquares)
    (fieldLen : Nat) (hwf : WellFormed mls) (hidx : IndicesInRange mls)
    (hlen : fieldLen = mls._source_size) :
    interpolateAccessesInBounds mls fieldLen := by
  intro i hi
  have hi2 : i < mls._values_indices.length := hi
  have hi1 : i < mls._coeffs.length := by
    rw [hwf.1]
    exact hi
  refine ⟨hi1, hi2, ?_⟩
  intro j hj
  have hcmem : mls._coeffs.getD i [] ∈ mls._coeffs := by
    rw [List.getD_eq_getElem _ _ hi1]
    exact List.getElem_mem _
  have hvmem : mls._values_indices.getD i [] ∈ mls._values_indices := by
    rw [List.getD_eq_getElem _ _ hi2]
    exact List.getElem_mem _
  have hclen : (mls._coeffs.getD i []).length = numNeighbors mls :=
    hwf.2.1 _ hcmem
  have hvlen : (mls._values_indices.getD i []).length = numNeighbors mls :=
    hwf.2.2 _ hvmem
  have hjv : j < (mls._values_indices.getD i []).length := by
    rw [hvlen]
    exact hj
  refine ⟨by rw [hclen]; exact hj, hjv, ?_⟩
  have hidxmem : (mls._values_indices.getD i []).getD j 0 ∈
      mls._values_indices.getD i [] := by
    rw [List.getD_eq_getElem _ _ hjv]
    exact List.getElem_mem _
  rw [hlen]
  exact hidx _ hvmem _ hidxmem

theorem interpolate_accesses_in_bounds_witness :
    WellFormed mlsW ∧ IndicesInRange mlsW ∧ 2 = mlsW._source_size ∧
    interpolateAccessesInBounds mlsW 2 :=
  ⟨by decide, by decide, by decide,
   interpolate_accesses_in_bounds mlsW 2 (by decide) (by decide)
     (by decide)⟩

end ArborX
